import Mathlib

-- A shallow embedding of the TCP gateway in src/main.go: dual-format handshake
-- decoding, the dial retry policy, the agent bootstrap preamble, relay task
-- scheduling, accept-loop backoff, retry-count configuration and the
-- buffered-reader pool, together with theorems settling the specification
-- claims against this model.  Byte streams are lists of naturals; the
-- symmetric cipher is an opaque parameter, as the spec treats it as an
-- external collaborator.

namespace Gateway

/-- A byte stream: each element is one byte value. -/
abbrev Bytes := List Nat

/-- The status tokens (codeOK, codeBadReq, codeBadAddr, codeDialErr,
codeDialTimeout in main.go), each a three-digit sequence written to the
client socket. -/
inductive Token
  | ok
  | badReq
  | badAddr
  | dialErr
  | dialTimeout
deriving DecidableEq

/-- bufio ReadSlice up to and including the newline byte 10: returns the line
(newline included) and the remaining buffered bytes, failing when the stream
ends before a newline arrives. -/
def readSlice : Bytes → Option (Bytes × Bytes)
  | [] => none
  | b :: rest =>
    if b = 10 then some ([10], rest)
    else
      match readSlice rest with
      | none => none
      | some (line, r) => some (b :: line, r)

/-- handshakeBinary (main.go lines 237-257), entered after the 0x00 marker was
consumed: read one length byte, then exactly that many ciphertext bytes
(ReadFull, so a short read is an error yielding the 400 token), then raw
decrypt (failure yields the 401 token).  On success the address and the
still-buffered leftover bytes are returned. -/
def handshakeBinary (decrypt : Bytes → Option Bytes) (input : Bytes) :
    Except Token (Bytes × Bytes) :=
  match input with
  | [] => .error .badReq
  | n :: rest =>
    if rest.length < n then .error .badReq
    else
      match decrypt (rest.take n) with
      | none => .error .badAddr
      | some addr => .ok (addr, rest.drop n)

/-- handshakeText (main.go lines 259-270): read a newline-terminated line
(failure yields 400), then base64-decode-and-decrypt it (failure yields 401). -/
def handshakeText (decryptBase64 : Bytes → Option Bytes) (input : Bytes) :
    Except Token (Bytes × Bytes) :=
  match readSlice input with
  | none => .error .badReq
  | some (line, rest) =>
    match decryptBase64 line with
    | none => .error .badAddr
    | some addr => .ok (addr, rest)

/-- handshake (main.go lines 220-235): read the first byte (an immediate EOF
writes the 400 token); byte 0 selects binary framing, any other byte is pushed
back (UnreadByte, which cannot fail right after a successful ReadByte) and the
whole line is handled as text. -/
def handshake (decrypt decryptBase64 : Bytes → Option Bytes) (input : Bytes) :
    Except Token (Bytes × Bytes) :=
  match input with
  | [] => .error .badReq
  | b :: rest =>
    if b = 0 then handshakeBinary decrypt rest
    else handshakeText decryptBase64 (b :: rest)

/-- Failure injection for the backend-socket operations of agentInit: whether
each SetWriteDeadline call and each Write call succeeds. -/
structure AgentEnv where
  setDeadlineOk : Bool
  write1Ok : Bool
  write2Ok : Bool
  clearDeadlineOk : Bool
deriving DecidableEq

/-- Result of agentInit: a runtime panic (out-of-range slice index), an error
return, or success; in the last two cases the bytes delivered to the backend
so far are recorded. -/
inductive AgentInitRes
  | panicked
  | failed (written : Bytes)
  | ok (written : Bytes)
deriving DecidableEq

/-- Length of the slice buf[:byte(len(addr)+1)] in agentInit: the Go byte
conversion reduces len(addr)+1 modulo 256. -/
def addrBufLen (addr : Bytes) : Nat := (addr.length + 1) % 256

/-- agentInit (main.go lines 296-322): set a write deadline, build the
preamble addrBuf of length byte(len(addr)+1) inside a zeroed 256-byte buffer
(addrBuf[0] = byte(len(addr)), then copy of the address, zero padding if the
copy is short), write it, write the leftover buffered bytes (Peek of the
buffered data cannot fail), clear the deadline.  When byte(len(addr)+1) = 0
the slice is empty and the store addrBuf[0] panics. -/
def agentInit (addr leftover : Bytes) (env : AgentEnv) : AgentInitRes :=
  if ¬ env.setDeadlineOk then .failed []
  else if addrBufLen addr = 0 then .panicked
  else
    let body := addr.take (addrBufLen addr - 1)
    let preamble : Bytes :=
      (addr.length % 256) :: (body ++ List.replicate ((addrBufLen addr - 1) - body.length) 0)
    if ¬ env.write1Ok then .failed []
    else if ¬ env.write2Ok then .failed preamble
    else if ¬ env.clearDeadlineOk then .failed (preamble ++ leftover)
    else .ok (preamble ++ leftover)

/-- Classification of one net.DialTimeout attempt: success, a timeout-classified
error (retryable), or any other error (hard). -/
inductive AttemptResult
  | success
  | timeout
  | hardError
deriving DecidableEq

/-- How the retry loop of dial (main.go lines 273-283) exits: it fell through
the loop condition after the given number of iterations (every attempt timed
out), or attempt i succeeded, or attempt i failed with a non-timeout error. -/
inductive LoopExit
  | fell (i : Nat)
  | succeeded (i : Nat)
  | hard (i : Nat)
deriving DecidableEq

/-- The dial retry loop: for i := 0; i < cfgDialRetry; i++, where fuel is the
remaining number of permitted iterations and i the current attempt index. -/
def dialLoop (att : Nat → AttemptResult) : Nat → Nat → LoopExit
  | 0, i => .fell i
  | fuel + 1, i =>
    match att i with
    | .success => .succeeded i
    | .timeout => dialLoop att fuel (i + 1)
    | .hardError => .hard i

/-- The pair of values dial returns: either a normal return recording whether
the agent connection is non-nil and whether the error is nil, or a panic
(never a normal return at all). -/
inductive DialRet
  | ret (connNonNil : Bool) (errIsNil : Bool)
  | panicked
deriving DecidableEq

/-- Observable outcome of dial: number of net.DialTimeout attempts performed,
tokens written to the client, bytes delivered to the backend, and the return
shape. -/
structure DialOut where
  attemptsMade : Nat
  tokens : List Token
  written : Bytes
  ret : DialRet
deriving DecidableEq

/-- dial (main.go lines 272-294).  The retry count is an Int because the
configuration loader lets negative values through.  A non-timeout error writes
codeDialErr and returns at once; falling out of the loop with a timeout error
writes codeDialTimeout; falling out with zero iterations leaves agent and err
both nil, so the agentInit call dereferences a nil net.Conn and panics; after
a successful attempt agentInit runs, and its failure closes the agent, writes
codeDialErr and returns. -/
def dial (retry : Int) (att : Nat → AttemptResult) (clientAddr leftover : Bytes)
    (env : AgentEnv) : DialOut :=
  match dialLoop att retry.toNat 0 with
  | .hard i => ⟨i + 1, [.dialErr], [], .ret false false⟩
  | .fell 0 => ⟨0, [], [], .panicked⟩
  | .fell (i + 1) => ⟨i + 1, [.dialTimeout], [], .ret false false⟩
  | .succeeded i =>
    match agentInit clientAddr leftover env with
    | .panicked => ⟨i + 1, [], [], .panicked⟩
    | .failed w => ⟨i + 1, [.dialErr], w, .ret false false⟩
    | .ok w => ⟨i + 1, [], w, .ret true true⟩

/-- The two ends of the relay. -/
inductive Endpoint
  | client
  | agent
deriving DecidableEq

/-- One directional copy: io.Copy(dst, src) moves bytes from src to dst. -/
structure CopyOp where
  dst : Endpoint
  src : Endpoint
deriving DecidableEq

/-- safeCopy(dst, src) (main.go lines 324-331) performs io.Copy(dst, src)
inside a panic guard; argument order is (destination, source). -/
def safeCopy (dst src : Endpoint) : CopyOp := ⟨dst, src⟩

/-- io.Copy(dst, src): argument order is (destination, source). -/
def ioCopy (dst src : Endpoint) : CopyOp := ⟨dst, src⟩

/-- Inputs of one connection handler run: client bytes available before EOF,
the client remote-address string, the dial policy retry count, the classified
outcome of each dial attempt, the backend-socket failure injection, and
whether the conn.Write of codeOK succeeds. -/
structure HandleIn where
  input : Bytes
  remoteAddr : Bytes
  retry : Int
  att : Nat → AttemptResult
  env : AgentEnv
  okWriteOk : Bool

/-- Observable outcome of one connection handler run: tokens written to the
client in order, dial attempts performed, bytes delivered to the backend
before relay, the two relay copy operations (background task first, current
flow second) when relay starts, and whether the handler ended in a recovered
panic. -/
structure HandleOut where
  tokens : List Token
  dialAttempts : Nat
  agentBytes : Bytes
  relay : Option (CopyOp × CopyOp)
  panicked : Bool

/-- The tail of handle after dial returns (main.go lines 201-218): a non-nil
error returns at once; otherwise the reader is released, codeOK is written
(its own failure returns before relay), then go safeCopy(agent, conn) starts
the background copy and io.Copy(conn, agent) runs in the current flow. -/
def handleDialed (d : DialOut) (okWriteOk : Bool) : HandleOut :=
  match d.ret with
  | .panicked => ⟨d.tokens, d.attemptsMade, d.written, none, true⟩
  | .ret _ false => ⟨d.tokens, d.attemptsMade, d.written, none, false⟩
  | .ret _ true =>
    if okWriteOk then
      ⟨d.tokens ++ [.ok], d.attemptsMade, d.written,
        some (safeCopy .agent .client, ioCopy .client .agent), false⟩
    else ⟨d.tokens ++ [.ok], d.attemptsMade, d.written, none, false⟩

/-- handle (main.go lines 174-218): run the handshake (a failure already wrote
its token and performs no dial), then dial and the rest of the pipeline. -/
def handle (decrypt decryptBase64 : Bytes → Option Bytes) (hin : HandleIn) : HandleOut :=
  match handshake decrypt decryptBase64 hin.input with
  | .error t => ⟨[t], 0, [], none, false⟩
  | .ok (_, leftover) =>
    handleDialed (dial hin.retry hin.att hin.remoteAddr leftover hin.env) hin.okWriteOk

/-- Outcome of one listener.Accept call: a connection, a temporary network
error, or a fatal error. -/
inductive AcceptEvent
  | acceptOk
  | tempErr
  | fatalErr
deriving DecidableEq

/-- The backoff update of accept (main.go lines 156-163), in milliseconds:
a zero delay becomes 5ms, otherwise the delay doubles, capped at 1000ms. -/
def nextDelay (d : Nat) : Nat :=
  if d = 0 then 5
  else if 1000 < 2 * d then 1000 else 2 * d

/-- accept (main.go lines 150-172) on a finite schedule of Accept outcomes:
returns the sleeps performed in order, the final value of tempDelay, and the
result (some true = connection returned with tempDelay reset to 0, some false
= fatal error returned, none = schedule exhausted while still looping). -/
def accept : List AcceptEvent → Nat → List Nat × Nat × Option Bool
  | [], d => ([], d, none)
  | .acceptOk :: _, _ => ([], 0, some true)
  | .fatalErr :: _, d => ([], d, some false)
  | .tempErr :: rest, d =>
    ((nextDelay d) :: (accept rest (nextDelay d)).1,
      (accept rest (nextDelay d)).2.1,
      (accept rest (nextDelay d)).2.2)

/-- The GW_DIAL_RETRY handling of config (main.go lines 77-86): unset keeps
the default 1; a parsed value of exactly 0 is coerced to 1; every other value,
negative ones included, is kept as is. -/
def configRetry : Option Int → Int
  | none => 1
  | some n => if n = 0 then 1 else n

/-- A pooled bufio.Reader: its buffered bytes and the connection it reads
from (none after Reset(nil)). -/
structure BufReader where
  buf : Bytes
  conn : Option Nat
deriving DecidableEq

/-- reader.Reset(c): drops all buffered data and attaches the reader to c. -/
def readerReset (_r : BufReader) (c : Option Nat) : BufReader := ⟨[], c⟩

/-- bufioPool.Get at handler start (main.go lines 182-187): reuse the first
pooled reader after Reset(conn), or allocate a fresh empty reader. -/
def poolGet (pool : List BufReader) (c : Nat) : BufReader × List BufReader :=
  match pool with
  | [] => (⟨[], some c⟩, [])
  | r :: rest => (readerReset r (some c), rest)

/-- Returning a reader to the pool (main.go lines 190-193 and 208-211): always
reader.Reset(nil) immediately before bufioPool.Put. -/
def poolPut (pool : List BufReader) (r : BufReader) : List BufReader :=
  readerReset r none :: pool

/-- The pool effect of one whole handler run: borrow a reader, let it buffer
arbitrary connection bytes, then return it on either path - the deferred
return on early exit, or the explicit release before the relay phase; both
paths reset the reader before putting it back. -/
def handlePool (pool : List BufReader) (c : Nat) (bytesRead : Bytes)
    (earlyExit : Bool) : List BufReader :=
  let borrowed := poolGet pool c
  let used : BufReader := ⟨bytesRead, borrowed.1.conn⟩
  if earlyExit then poolPut borrowed.2 used else poolPut borrowed.2 used

/-- All backend-socket operations succeed. -/
def envOK : AgentEnv := ⟨true, true, true, true⟩

/-- The first backend write (the preamble) fails. -/
def env1 : AgentEnv := ⟨true, false, true, true⟩

/-- Every dial attempt succeeds. -/
def attOK : Nat → AttemptResult := fun _ => .success

/-- Attempt 0 times out, every later attempt is a hard error. -/
def attW : Nat → AttemptResult := fun j => if j = 0 then .timeout else .hardError

/-- A decrypt function that accepts everything. -/
def decAny : Bytes → Option Bytes := fun _ => some [65]

/-- A concrete raw decrypt: ciphertext [3] yields the address bytes of A:1. -/
def decB : Bytes → Option Bytes := fun l => if l = [3] then some [65, 58, 49] else none

/-- A concrete base64 decode: the line [7, 10] decodes to the ciphertext [3]. -/
def b64decB : Bytes → Option Bytes := fun l => if l = [7, 10] then some [3] else none

/-- The induced base64 decrypt: decode then raw-decrypt. -/
def decB64 : Bytes → Option Bytes := fun l => (b64decB l).bind decB

/-- A handler input whose client stream is empty (immediate EOF). -/
def hin0 : HandleIn := ⟨[], [65], 1, attOK, envOK, true⟩

/-- A handler input for a fully successful run: binary frame with a one-byte
ciphertext, a reachable backend and a healthy backend socket. -/
def hinOK : HandleIn := ⟨[0, 1, 7], [65], 1, attOK, envOK, true⟩

-- Helper lemmas about the dial retry loop.

theorem dialLoop_all_timeout (att : Nat → AttemptResult) :
    ∀ fuel i, (∀ j, i ≤ j → j < i + fuel → att j = .timeout) →
      dialLoop att fuel i = .fell (i + fuel) := by
  intro fuel
  induction fuel with
  | zero => intro i _; simp [dialLoop]
  | succ n ih =>
    intro i h
    have hi : att i = .timeout := h i le_rfl (by omega)
    have hrec : dialLoop att n (i + 1) = .fell (i + 1 + n) :=
      ih (i + 1) (fun j hj1 hj2 => h j (by omega) (by omega))
    have harith : i + 1 + n = i + (n + 1) := by omega
    simp [dialLoop, hi, hrec, harith]

theorem dialLoop_first_success (att : Nat → AttemptResult) :
    ∀ fuel i k, i ≤ k → k < i + fuel → (∀ j, i ≤ j → j < k → att j = .timeout) →
      att k = .success → dialLoop att fuel i = .succeeded k := by
  intro fuel
  induction fuel with
  | zero => intro i k h1 h2 _ _; exact absurd h2 (by omega)
  | succ n ih =>
    intro i k h1 h2 h3 h4
    rcases Nat.eq_or_lt_of_le h1 with rfl | hlt
    · simp [dialLoop, h4]
    · have hi : att i = .timeout := h3 i le_rfl hlt
      simp only [dialLoop, hi]
      exact ih (i + 1) k (by omega) (by omega) (fun j hj1 hj2 => h3 j (by omega) hj2) h4

theorem dialLoop_first_hard (att : Nat → AttemptResult) :
    ∀ fuel i k, i ≤ k → k < i + fuel → (∀ j, i ≤ j → j < k → att j = .timeout) →
      att k = .hardError → dialLoop att fuel i = .hard k := by
  intro fuel
  induction fuel with
  | zero => intro i k h1 h2 _ _; exact absurd h2 (by omega)
  | succ n ih =>
    intro i k h1 h2 h3 h4
    rcases Nat.eq_or_lt_of_le h1 with rfl | hlt
    · simp [dialLoop, h4]
    · have hi : att i = .timeout := h3 i le_rfl hlt
      simp only [dialLoop, hi]
      exact ih (i + 1) k (by omega) (by omega) (fun j hj1 hj2 => h3 j (by omega) hj2) h4

theorem dialLoop_fell_eq (att : Nat → AttemptResult) :
    ∀ fuel i j, dialLoop att fuel i = .fell j → j = i + fuel := by
  intro fuel
  induction fuel with
  | zero => intro i j h; simp [dialLoop] at h; omega
  | succ n ih =>
    intro i j h
    cases hA : att i with
    | success => simp [dialLoop, hA] at h
    | timeout =>
      simp only [dialLoop, hA] at h
      have := ih (i + 1) j h
      omega
    | hardError => simp [dialLoop, hA] at h

/-- Claim C1 (amended): with retryCount at least 1, a non-timeout failure at
the first non-successful-non-timeout attempt i writes the DialError token
immediately, after exactly i+1 attempts, with no further attempts; if every
one of the retryCount attempts times out, exactly retryCount attempts are
made and the DialTimeout token is written; if some attempt succeeds after
timeouts only, no further attempts are made and the dial retry loop writes no
token - the only token possibly written after a successful attempt is
DialError from a failing agent bootstrap. -/
theorem C1_dial_retry (retry : Int) (h1 : 1 ≤ retry) (att : Nat → AttemptResult)
    (clientAddr leftover : Bytes) (env : AgentEnv) :
    (∀ i, i < retry.toNat → (∀ j, j < i → att j = .timeout) → att i = .hardError →
      dial retry att clientAddr leftover env =
        ⟨i + 1, [Token.dialErr], [], DialRet.ret false false⟩) ∧
    ((∀ j, j < retry.toNat → att j = .timeout) →
      dial retry att clientAddr leftover env =
        ⟨retry.toNat, [Token.dialTimeout], [], DialRet.ret false false⟩) ∧
    (∀ i, i < retry.toNat → (∀ j, j < i → att j = .timeout) → att i = .success →
      (dial retry att clientAddr leftover env).attemptsMade = i + 1 ∧
      (∀ w, agentInit clientAddr leftover env = .ok w →
        (dial retry att clientAddr leftover env).tokens = []) ∧
      (∀ w, agentInit clientAddr leftover env = .failed w →
        (dial retry att clientAddr leftover env).tokens = [Token.dialErr])) := by
  refine ⟨?_, ?_, ?_⟩
  · intro i hi hprev hhard
    have hL : dialLoop att retry.toNat 0 = .hard i :=
      dialLoop_first_hard att retry.toNat 0 i (Nat.zero_le i) (by omega)
        (fun j _ hj => hprev j hj) hhard
    unfold dial
    rw [hL]
  · intro hall
    have hL : dialLoop att retry.toNat 0 = .fell (0 + retry.toNat) :=
      dialLoop_all_timeout att retry.toNat 0 (fun j _ hj => hall j (by omega))
    obtain ⟨m, hm⟩ : ∃ m, retry.toNat = m + 1 := ⟨retry.toNat - 1, by omega⟩
    rw [Nat.zero_add, hm] at hL
    unfold dial
    rw [hm, hL]
  · intro i hi hprev hsucc
    have hL : dialLoop att retry.toNat 0 = .succeeded i :=
      dialLoop_first_success att retry.toNat 0 i (Nat.zero_le i) (by omega)
        (fun j _ hj => hprev j hj) hsucc
    unfold dial
    rw [hL]
    cases hA : agentInit clientAddr leftover env with
    | panicked => simp
    | failed w0 => simp
    | ok w0 => simp

/-- Witness for C1: with retryCount 2, a timeout at attempt 0 and a hard error
at attempt 1, dial makes exactly 2 attempts and writes only the DialError
token. -/
theorem C1_witness :
    dial 2 attW [65] [] envOK = ⟨2, [Token.dialErr], [], DialRet.ret false false⟩ :=
  (C1_dial_retry 2 (by decide) attW [65] [] envOK).1 1 (by decide)
    (by decide) (by decide)

/-- Counterexample for C1 as frozen: with retryCount 1 and a successful first
attempt but a failing backend bootstrap write, an error token (DialError) is
written to the client even though a dial attempt succeeded. -/
theorem C1_counterexample :
    attOK 0 = AttemptResult.success ∧
    (dial 1 attOK [65] [] env1).attemptsMade = 1 ∧
    (dial 1 attOK [65] [] env1).tokens = [Token.dialErr] := by decide

/-- Claim C2 (confirmed): for a binary-framed handshake (first byte 0), a
missing length byte or a short ciphertext read writes the BadRequest token and
performs no dial attempt; a fully read ciphertext whose raw decrypt fails
writes the BadAddress token and performs no dial attempt. -/
theorem C2_binary (decrypt decryptBase64 : Bytes → Option Bytes) (hin : HandleIn)
    (rest : Bytes) (hinp : hin.input = 0 :: rest) :
    (rest = [] →
      (handle decrypt decryptBase64 hin).tokens = [Token.badReq] ∧
      (handle decrypt decryptBase64 hin).dialAttempts = 0) ∧
    (∀ n body, rest = n :: body → body.length < n →
      (handle decrypt decryptBase64 hin).tokens = [Token.badReq] ∧
      (handle decrypt decryptBase64 hin).dialAttempts = 0) ∧
    (∀ n body, rest = n :: body → ¬ body.length < n → decrypt (body.take n) = none →
      (handle decrypt decryptBase64 hin).tokens = [Token.badAddr] ∧
      (handle decrypt decryptBase64 hin).dialAttempts = 0) := by
  refine ⟨?_, ?_, ?_⟩
  · rintro rfl
    simp [handle, handshake, handshakeBinary, hinp]
  · rintro n body rfl hshort
    simp [handle, handshake, handshakeBinary, hinp, hshort]
  · rintro n body rfl hlong hdec
    simp [handle, handshake, handshakeBinary, hinp, hlong, hdec]

/-- Witness for C2: the frame declaring 3 ciphertext bytes but delivering only
2 before EOF yields the 400 token and zero dial attempts. -/
theorem C2_witness :
    (handle decAny decAny ⟨[0, 3, 1, 2], [65], 1, attOK, envOK, true⟩).tokens =
      [Token.badReq] ∧
    (handle decAny decAny ⟨[0, 3, 1, 2], [65], 1, attOK, envOK, true⟩).dialAttempts = 0 :=
  (C2_binary decAny decAny ⟨[0, 3, 1, 2], [65], 1, attOK, envOK, true⟩ [3, 1, 2]
    rfl).2.1 3 [1, 2] rfl (by decide)

/-- Case analysis on the observable outcome of dial: a panic with no token, a
failing return with exactly one token, or a successful return with no token. -/
theorem dial_out_cases (retry : Int) (att : Nat → AttemptResult)
    (clientAddr leftover : Bytes) (env : AgentEnv) :
    ((dial retry att clientAddr leftover env).ret = .panicked ∧
      (dial retry att clientAddr leftover env).tokens = []) ∨
    ((dial retry att clientAddr leftover env).ret = .ret false false ∧
      (dial retry att clientAddr leftover env).tokens.length = 1) ∨
    ((dial retry att clientAddr leftover env).ret = .ret true true ∧
      (dial retry att clientAddr leftover env).tokens = []) := by
  unfold dial
  cases hL : dialLoop att retry.toNat 0 with
  | fell i => cases i <;> simp
  | succeeded i => cases hA : agentInit clientAddr leftover env <;> simp
  | hard i => simp

/-- Equation for handleDialed when dial panicked. -/
theorem handleDialed_panic (d : DialOut) (okw : Bool) (h : d.ret = .panicked) :
    handleDialed d okw = ⟨d.tokens, d.attemptsMade, d.written, none, true⟩ := by
  unfold handleDialed
  rw [h]

/-- Equation for handleDialed when dial returned an error. -/
theorem handleDialed_err (d : DialOut) (okw c : Bool) (h : d.ret = .ret c false) :
    handleDialed d okw = ⟨d.tokens, d.attemptsMade, d.written, none, false⟩ := by
  unfold handleDialed
  rw [h]

/-- Equation for handleDialed when dial returned successfully. -/
theorem handleDialed_okret (d : DialOut) (okw c : Bool) (h : d.ret = .ret c true) :
    handleDialed d okw =
      if okw then
        ⟨d.tokens ++ [.ok], d.attemptsMade, d.written,
          some (safeCopy .agent .client, ioCopy .client .agent), false⟩
      else ⟨d.tokens ++ [.ok], d.attemptsMade, d.written, none, false⟩ := by
  unfold handleDialed
  rw [h]

/-- Equation for handle when the handshake failed. -/
theorem handle_handshake_err (decrypt decryptBase64 : Bytes → Option Bytes)
    (hin : HandleIn) (t : Token)
    (hh : handshake decrypt decryptBase64 hin.input = .error t) :
    handle decrypt decryptBase64 hin = ⟨[t], 0, [], none, false⟩ := by
  unfold handle
  rw [hh]

/-- Equation for handle when the handshake succeeded. -/
theorem handle_handshake_ok (decrypt decryptBase64 : Bytes → Option Bytes)
    (hin : HandleIn) (a l : Bytes)
    (hh : handshake decrypt decryptBase64 hin.input = .ok (a, l)) :
    handle decrypt decryptBase64 hin =
      handleDialed (dial hin.retry hin.att hin.remoteAddr l hin.env) hin.okWriteOk := by
  unfold handle
  rw [hh]

/-- Claim C3 (amended): on every terminal path of the handler that does not
end in a recovered panic, exactly one StatusToken is written - including when
the failure occurs before any byte has been read, where the immediate EOF
already yields the BadRequest token; no path writes two tokens. -/
theorem C3_one_token (decrypt decryptBase64 : Bytes → Option Bytes) (hin : HandleIn) :
    ((handle decrypt decryptBase64 hin).panicked = false →
      (handle decrypt decryptBase64 hin).tokens.length = 1) ∧
    (handle decrypt decryptBase64 hin).tokens.length ≤ 1 := by
  cases hh : handshake decrypt decryptBase64 hin.input with
  | error t =>
    rw [handle_handshake_err decrypt decryptBase64 hin t hh]
    simp
  | ok p =>
    obtain ⟨a, l⟩ := p
    rw [handle_handshake_ok decrypt decryptBase64 hin a l hh]
    rcases dial_out_cases hin.retry hin.att hin.remoteAddr l hin.env with
      ⟨hr, ht⟩ | ⟨hr, ht⟩ | ⟨hr, ht⟩
    · rw [handleDialed_panic _ _ hr]
      simp [ht]
    · rw [handleDialed_err _ _ _ hr]
      simp [ht]
    · rw [handleDialed_okret _ _ _ hr]
      rcases Bool.eq_false_or_eq_true hin.okWriteOk with hw | hw <;> rw [hw] <;> simp [ht]

/-- Witness for C3: on a fully successful concrete run the handler writes
exactly one token. -/
theorem C3_witness :
    (handle decAny decAny hinOK).tokens.length = 1 :=
  (C3_one_token decAny decAny hinOK).1 (by decide)

/-- Counterexample for C3 as frozen: when the client closes before any byte is
read (empty input), the claim says no token is written, but the handler writes
the BadRequest token. -/
theorem C3_counterexample :
    hin0.input = [] ∧
    (handle decAny decAny hin0).tokens = [Token.badReq] := by decide

/-- Claim C4 (amended): whenever the relay phase starts, the background task
is go safeCopy(agent, conn) - the client-to-backend direction - and the
handler's current flow runs io.Copy(conn, agent) - the backend-to-client
direction. -/
theorem C4_relay_directions (decrypt decryptBase64 : Bytes → Option Bytes)
    (hin : HandleIn) (bg fg : CopyOp)
    (h : (handle decrypt decryptBase64 hin).relay = some (bg, fg)) :
    bg = safeCopy .agent .client ∧ fg = ioCopy .client .agent ∧
    bg.src = .client ∧ bg.dst = .agent ∧ fg.src = .agent ∧ fg.dst = .client := by
  cases hh : handshake decrypt decryptBase64 hin.input with
  | error t =>
    rw [handle_handshake_err decrypt decryptBase64 hin t hh] at h
    simp at h
  | ok p =>
    obtain ⟨a, l⟩ := p
    rw [handle_handshake_ok decrypt decryptBase64 hin a l hh] at h
    rcases dial_out_cases hin.retry hin.att hin.remoteAddr l hin.env with
      ⟨hr, _⟩ | ⟨hr, _⟩ | ⟨hr, _⟩
    · rw [handleDialed_panic _ _ hr] at h
      simp at h
    · rw [handleDialed_err _ _ _ hr] at h
      simp at h
    · rw [handleDialed_okret _ _ _ hr] at h
      rcases Bool.eq_false_or_eq_true hin.okWriteOk with hw | hw <;> rw [hw] at h <;>
        simp at h
      obtain ⟨h1, h2⟩ := h
      subst h1
      subst h2
      exact ⟨rfl, rfl, rfl, rfl, rfl, rfl⟩

/-- Witness for C4: on a concrete successful run the background copy reads
from the client and the current-flow copy reads from the agent. -/
theorem C4_witness :
    (safeCopy Endpoint.agent Endpoint.client).src = Endpoint.client ∧
    (ioCopy Endpoint.client Endpoint.agent).src = Endpoint.agent :=
  ⟨(C4_relay_directions decAny decAny hinOK (safeCopy .agent .client)
      (ioCopy .client .agent) (by decide)).2.2.1,
    (C4_relay_directions decAny decAny hinOK (safeCopy .agent .client)
      (ioCopy .client .agent) (by decide)).2.2.2.2.1⟩

/-- Counterexample for C4 as frozen: the claim says the backend-to-client
direction is the background task, but on a concrete successful run the
background task is safeCopy(agent, conn), whose source is the client - the
client-to-backend direction. -/
theorem C4_counterexample :
    (handle decAny decAny hinOK).relay =
      some (safeCopy Endpoint.agent Endpoint.client,
        ioCopy Endpoint.client Endpoint.agent) ∧
    (safeCopy Endpoint.agent Endpoint.client).src = Endpoint.client ∧
    Endpoint.client ≠ Endpoint.agent := by decide

/-- Claim C5 (amended): for every successful bootstrap whose client
remote-address string is at most 254 bytes, the backend receives exactly one
length byte equal to the address length, then the address bytes, then all
leftover bytes, in that order with nothing in between; for longer addresses
the one-byte length fields wrap modulo 256 instead (see C9). -/
theorem C5_preamble (addr lo : Bytes) (env : AgentEnv) (w : Bytes)
    (hlen : addr.length ≤ 254) (h : agentInit addr lo env = .ok w) :
    w = addr.length :: (addr ++ lo) := by
  have h1 : addrBufLen addr = addr.length + 1 := by
    unfold addrBufLen
    omega
  have h2 : addr.length % 256 = addr.length := by omega
  unfold agentInit at h
  rw [h1, h2] at h
  simp only [Nat.add_sub_cancel, List.take_length, Nat.sub_self, List.replicate,
    List.append_nil] at h
  split_ifs at h
  simp only [AgentInitRes.ok.injEq] at h
  exact h.symm

/-- Witness for C5: a two-byte address and two leftover bytes produce the
preamble length 2, address, leftover. -/
theorem C5_witness :
    ([2, 65, 66, 1, 9] : Bytes) = [65, 66].length :: ([65, 66] ++ [1, 9]) :=
  C5_preamble [65, 66] [1, 9] envOK [2, 65, 66, 1, 9] (by decide) (by decide)

set_option maxRecDepth 4000 in
/-- Counterexample for C5 as frozen: with a 300-byte remote-address string the
bootstrap still succeeds, but the backend receives a length byte of 44 and
only 44 address bytes - not a length byte equal to the address length followed
by the address bytes. -/
theorem C5_counterexample :
    agentInit (List.replicate 300 65) [] envOK =
      .ok (44 :: List.replicate 44 65) ∧
    44 :: List.replicate 44 65 ≠
      (List.replicate 300 65).length :: (List.replicate 300 65 ++ []) := by decide

/-- readSlice on a stream whose first newline terminates the prefix returns
exactly that newline-terminated prefix and the rest. -/
theorem readSlice_split (xs rest : Bytes) (h : 10 ∉ xs) :
    readSlice (xs ++ 10 :: rest) = some (xs ++ [10], rest) := by
  induction xs with
  | nil => simp [readSlice]
  | cons b bs ih =>
    simp only [List.mem_cons, not_or] at h
    have hb : ¬ b = 10 := fun hEq => h.1 hEq.symm
    simp [readSlice, hb, ih h.2]

/-- Claim C6 (confirmed): assuming the cipher satisfies decryptBase64 line =
decrypt (base64-decode line), a binary handshake carrying the raw ciphertext
of an address and a text handshake carrying the base64 encoding of that
ciphertext followed by a newline decode to the identical destination
address. -/
theorem C6_codec (decrypt decryptBase64 b64decode : Bytes → Option Bytes)
    (ct a pre : Bytes) (b : Nat)
    (hb : b ≠ 0) (hnl : 10 ∉ b :: pre)
    (hdec : decrypt ct = some a)
    (hrel : ∀ l, decryptBase64 l = (b64decode l).bind decrypt)
    (hb64 : b64decode ((b :: pre) ++ [10]) = some ct) :
    handshake decrypt decryptBase64 (0 :: ct.length :: ct) = .ok (a, []) ∧
    handshake decrypt decryptBase64 ((b :: pre) ++ [10]) = .ok (a, []) := by
  constructor
  · simp [handshake, handshakeBinary, List.take_length, List.drop_length, hdec]
  · have hsl : readSlice ((b :: pre) ++ 10 :: []) = some ((b :: pre) ++ [10], []) :=
      readSlice_split (b :: pre) [] hnl
    simp only [List.cons_append] at hsl hb64
    simp [handshake, handshakeText, hb, hsl, hrel, hb64, hdec]

/-- Witness for C6: for the concrete cipher decB and base64 decoder b64decB,
the binary frame for ciphertext [3] and the text line [7, 10] both decode to
the address bytes of A:1. -/
theorem C6_witness :
    handshake decB decB64 [0, 1, 3] = .ok ([65, 58, 49], []) ∧
    handshake decB decB64 [7, 10] = .ok ([65, 58, 49], []) :=
  C6_codec decB decB64 b64decB [3] [65, 58, 49] [] 7 (by decide) (by decide)
    (by decide) (fun _ => rfl) (by decide)

/-- Claim C7 (confirmed): a buffered-reader handle borrowed from the pool at
connection start holds no buffered bytes (Get resets a reused entry, and a
fresh allocation is empty), and a whole handler run - whichever of the two
return paths it takes, and whatever bytes the reader buffered - puts back a
handle reset to empty and detached, so no byte of a prior connection survives
in the pool. -/
theorem C7_pool (pool : List BufReader) (c : Nat) (bytesRead : Bytes)
    (earlyExit : Bool) :
    (poolGet pool c).1.buf = [] ∧
    (poolGet pool c).1.conn = some c ∧
    handlePool pool c bytesRead earlyExit = ⟨[], none⟩ :: pool.tail := by
  cases pool <;> cases earlyExit <;>
    simp [poolGet, poolPut, handlePool, readerReset]

-- Helper lemmas for the accept-loop backoff.

theorem nextDelay_bounds (d : Nat) (h : d = 0 ∨ 5 ≤ d) :
    5 ≤ nextDelay d ∧ nextDelay d ≤ 1000 := by
  rcases h with rfl | h5 <;> unfold nextDelay <;> split_ifs <;> omega

theorem nextDelay_eq_min (d : Nat) (h : 5 ≤ d) : nextDelay d = min (2 * d) 1000 := by
  unfold nextDelay
  rw [if_neg (by omega), Nat.min_def]
  split_ifs <;> omega

theorem accept_spec (evs : List AcceptEvent) :
    ∀ d, d = 0 ∨ 5 ≤ d →
      (((accept evs d).1 ≠ [] → (accept evs d).1.head? = some (nextDelay d)) ∧
        List.Chain' (fun a b => b = min (2 * a) 1000) (accept evs d).1 ∧
        (∀ x ∈ (accept evs d).1, 5 ≤ x ∧ x ≤ 1000) ∧
        List.Chain' (fun a b => a ≤ b) (accept evs d).1 ∧
        ((accept evs d).2.2 = some true → (accept evs d).2.1 = 0)) := by
  induction evs with
  | nil => intro d _; simp [accept]
  | cons e rest ih =>
    intro d hd
    cases e with
    | acceptOk => simp [accept]
    | fatalErr => simp [accept]
    | tempErr =>
      have hnd := nextDelay_bounds d hd
      obtain ⟨ih1, ih2, ih3, ih4, ih5⟩ := ih (nextDelay d) (Or.inr hnd.1)
      refine ⟨?_, ?_, ?_, ?_, ?_⟩
      · intro _
        simp [accept]
      · simp only [accept]
        rw [List.chain'_cons']
        refine ⟨?_, ih2⟩
        intro y hy
        have hne : (accept rest (nextDelay d)).1 ≠ [] := by
          intro hEmpty
          rw [hEmpty] at hy
          simp at hy
        rw [ih1 hne] at hy
        simp only [Option.mem_def, Option.some.injEq] at hy
        subst hy
        exact nextDelay_eq_min (nextDelay d) hnd.1
      · intro x hx
        simp only [accept, List.mem_cons] at hx
        rcases hx with rfl | hx
        · exact hnd
        · exact ih3 x hx
      · simp only [accept]
        rw [List.chain'_cons']
        refine ⟨?_, ih4⟩
        intro y hy
        have hne : (accept rest (nextDelay d)).1 ≠ [] := by
          intro hEmpty
          rw [hEmpty] at hy
          simp at hy
        rw [ih1 hne] at hy
        simp only [Option.mem_def, Option.some.injEq] at hy
        subst hy
        rw [nextDelay_eq_min (nextDelay d) hnd.1]
        omega
      · simp only [accept]
        exact ih5

/-- Claim C8 (confirmed): starting from a fresh accept call, the sleep before
the first retry is 5ms, each following sleep is the double of the previous
one capped at 1000ms (hence the sequence is non-decreasing and never exceeds
one second), and when a connection is finally accepted the delay state is
reset to 0. -/
theorem C8_backoff (evs : List AcceptEvent) :
    ((accept evs 0).1 ≠ [] → (accept evs 0).1.head? = some 5) ∧
    List.Chain' (fun a b => b = min (2 * a) 1000) (accept evs 0).1 ∧
    (∀ x ∈ (accept evs 0).1, x ≤ 1000) ∧
    List.Chain' (fun a b => a ≤ b) (accept evs 0).1 ∧
    ((accept evs 0).2.2 = some true → (accept evs 0).2.1 = 0) := by
  obtain ⟨h1, h2, h3, h4, h5⟩ := accept_spec evs 0 (Or.inl rfl)
  exact ⟨h1, h2, fun x hx => (h3 x hx).2, h4, h5⟩

/-- Witness for C8: three consecutive temporary errors then a successful
accept sleep 5, 10, 20 milliseconds and leave the delay reset to 0. -/
theorem C8_witness :
    (accept [AcceptEvent.tempErr, AcceptEvent.tempErr, AcceptEvent.tempErr,
      AcceptEvent.acceptOk] 0).1.head? = some 5 ∧
    (accept [AcceptEvent.tempErr, AcceptEvent.tempErr, AcceptEvent.tempErr,
      AcceptEvent.acceptOk] 0).2.1 = 0 :=
  ⟨(C8_backoff [AcceptEvent.tempErr, AcceptEvent.tempErr, AcceptEvent.tempErr,
      AcceptEvent.acceptOk]).1 (by decide),
    (C8_backoff [AcceptEvent.tempErr, AcceptEvent.tempErr, AcceptEvent.tempErr,
      AcceptEvent.acceptOk]).2.2.2.2 (by decide)⟩

/-- Claim C9 (amended): the bootstrap preamble writer validates nothing: for
every address of length at most 254 the length byte equals the exact length
and the preamble is well-formed; for an address whose length is congruent to
255 modulo 256 the computed slice length wraps to zero and the store into the
empty slice panics; for every other longer address the one-byte length fields
wrap modulo 256 undetected, producing a truncated preamble whose length byte
differs from the true length. -/
theorem C9_overflow (addr lo : Bytes) :
    (addr.length ≤ 254 →
      agentInit addr lo envOK = .ok (addr.length :: (addr ++ lo))) ∧
    (addr.length % 256 = 255 → agentInit addr lo envOK = .panicked) ∧
    (255 ≤ addr.length → addr.length % 256 ≠ 255 →
      agentInit addr lo envOK =
        .ok ((addr.length % 256) :: (addr.take (addr.length % 256) ++ lo)) ∧
      addr.length % 256 ≠ addr.length) := by
  refine ⟨?_, ?_, ?_⟩
  · intro hlen
    have h1 : addrBufLen addr = addr.length + 1 := by
      unfold addrBufLen
      omega
    have h2 : addr.length % 256 = addr.length := by omega
    unfold agentInit
    rw [h1, h2]
    simp [envOK, Nat.add_sub_cancel, List.take_length, Nat.sub_self]
  · intro hm
    have h1 : addrBufLen addr = 0 := by
      unfold addrBufLen
      omega
    unfold agentInit
    rw [h1]
    simp [envOK]
  · intro h255 hm
    have h2 : addr.length % 256 ≤ addr.length := Nat.mod_le _ _
    have hmod : addr.length % 256 < 255 := by omega
    have h1 : addrBufLen addr = addr.length % 256 + 1 := by
      unfold addrBufLen
      omega
    constructor
    · have htl : (addr.take (addr.length % 256)).length = addr.length % 256 := by
        rw [List.length_take]
        omega
      unfold agentInit
      rw [h1]
      simp [envOK, Nat.add_sub_cancel, htl, Nat.sub_self]
    · omega

/-- Witness for C9: a one-byte address with one leftover byte yields the exact
preamble. -/
theorem C9_witness :
    agentInit [65] [9] envOK = .ok [1, 65, 9] :=
  (C9_overflow [65] [9]).1 (by decide)

set_option maxRecDepth 4000 in
/-- Counterexample for C9 as frozen: the claim says every address longer than
254 bytes wraps modulo 256 undetected, but at length exactly 255 the computed
slice length wraps to zero and agentInit panics instead of writing any
preamble. -/
theorem C9_counterexample :
    (List.replicate 255 65).length = 255 ∧
    agentInit (List.replicate 255 65) [] envOK = .panicked := by decide

/-- Claim C10 (amended): with retryCount at least 1, dial never returns a nil
backend connection together with a nil error; the configuration loader
coerces only the value 0 to 1 and lets negative retry counts through, and
under a non-positive retry count the dial loop body never executes and dial
does not return nil with nil error either - it panics inside agentInit on the
nil connection. -/
theorem C10_dial_nil (retry : Int) (att : Nat → AttemptResult)
    (clientAddr leftover : Bytes) (env : AgentEnv) :
    (1 ≤ retry →
      (dial retry att clientAddr leftover env).ret ≠ DialRet.ret false true) ∧
    (retry ≤ 0 → (dial retry att clientAddr leftover env).ret = DialRet.panicked) ∧
    (∀ n : Int, n ≠ 0 → configRetry (some n) = n) ∧
    configRetry (some 0) = 1 ∧ configRetry none = 1 := by
  refine ⟨?_, ?_, ?_, by simp [configRetry], by simp [configRetry]⟩
  · intro h1
    unfold dial
    cases hL : dialLoop att retry.toNat 0 with
    | fell i =>
      cases i with
      | zero =>
        have hEq := dialLoop_fell_eq att retry.toNat 0 0 hL
        exact absurd hEq (by omega)
      | succ m => simp
    | succeeded i =>
      cases hA : agentInit clientAddr leftover env <;> simp
    | hard i => simp
  · intro h0
    have ht : retry.toNat = 0 := by omega
    unfold dial
    rw [ht]
    simp [dialLoop]
  · intro n hn
    simp [configRetry, hn]

/-- Witness for C10: with retry count 1 and a succeeding backend, the returned
pair is not nil connection with nil error. -/
theorem C10_witness :
    (dial 1 attOK [65] [] envOK).ret ≠ DialRet.ret false true :=
  (C10_dial_nil 1 attOK [65] [] envOK).1 (by decide)

/-- Counterexample for C10 as frozen: the configuration loader lets -1
through, and with retry count -1 dial does not return a nil connection with a
nil error as the claim states - it panics in agentInit. -/
theorem C10_counterexample :
    configRetry (some (-1)) = -1 ∧
    (dial (-1) attOK [65] [] envOK).ret = DialRet.panicked ∧
    DialRet.panicked ≠ DialRet.ret false true := by decide

end Gateway
